import Mathlib

/-!
Shallow embedding of the `WassersteinNN` strategy (`src/wasserstein_nn.py`).

Data values are rationals; numpy's special float values (+inf, -inf, NaN)
are modelled by the inductive `RVal`, and "value or NaN" intermediates by
`Option ℚ` (none = NaN).  numpy's `nanmean` over a one-dimensional slice is
`listNanmean`.  Tensors are total functions over `Fin` index types, matching
the in-bounds indexing the callers' contract guarantees (`inds` are
"indices into Z").
-/

/-- IEEE-style extended value as numpy uses it: a finite rational,
positive infinity, negative infinity, or NaN. -/
inductive RVal : Type
  | fin (q : ℚ)
  | pinf
  | ninf
  | nan
  deriving DecidableEq, Repr

/-- numpy `<=` on floats: any comparison with NaN is false, `inf <= inf`
and `-inf <= x` (x not NaN) are true. -/
def leb : RVal → RVal → Bool
  | .nan, _ => false
  | _, .nan => false
  | .ninf, _ => true
  | _, .pinf => true
  | .pinf, _ => false
  | .fin a, .fin b => decide (a ≤ b)
  | .fin _, .ninf => false

/-- numpy `<` on floats: any comparison with NaN is false. -/
def ltb : RVal → RVal → Bool
  | .nan, _ => false
  | _, .nan => false
  | .ninf, .ninf => false
  | .ninf, _ => true
  | _, .ninf => false
  | .pinf, _ => false
  | .fin _, .pinf => true
  | .fin a, .fin b => decide (a < b)

/-- numpy `np.nanmean` over a 1-d slice: drop the NaN entries; the mean of
what remains, or NaN when nothing remains (all-NaN or empty slice). -/
def listNanmean (l : List (Option ℚ)) : Option ℚ :=
  let v := l.filterMap id
  if v = [] then none else some (v.sum / (v.length : ℚ))

/-- Elementwise `(x - y) ** 2` with NaN propagation: the squared difference
of two possibly-NaN values. -/
def sqDiff : Option ℚ → Option ℚ → Option ℚ
  | some x, some y => some ((x - y) ^ 2)
  | _, _ => none

/-- Lines 147-149 of the source (`Z_cp = Z.copy(); Z_cp[M != 1] = np.nan`):
the copy of Z with every cell not observed under M replaced by NaN.
(The measurement dimension d = 1 is flattened away, per the class's own
restriction to tensors of shape (N, T, n, 1).) -/
def maskZ {N T n : ℕ} (Z : Fin N → Fin T → Fin n → ℚ) (M : Fin N → Fin T → ℕ) :
    Fin N → Fin T → Fin n → Option ℚ :=
  fun i t k => if M i t = 1 then some (Z i t k) else none

/-- Lines 153-158 (`nn_type == "ii"` branch of `distances`): the raw
pairwise column dissimilarity, `nanmean` over samples of the squared
difference, then `nanmean` over rows. -/
def pairDist_ii {N T n : ℕ} (Zc : Fin N → Fin T → Fin n → Option ℚ)
    (t t' : Fin T) : Option ℚ :=
  listNanmean ((List.finRange N).map fun i =>
    listNanmean ((List.finRange n).map fun k => sqDiff (Zc i t k) (Zc i t' k)))

/-- Lines 159-162 (`nn_type == "uu"` branch of `distances`): the raw
pairwise row dissimilarity, `nanmean` over samples of the squared
difference, then `nanmean` over columns. -/
def pairDist_uu {N T n : ℕ} (Zc : Fin N → Fin T → Fin n → Option ℚ)
    (i i' : Fin N) : Option ℚ :=
  listNanmean ((List.finRange T).map fun t =>
    listNanmean ((List.finRange n).map fun k => sqDiff (Zc i t k) (Zc i' t k)))

/-- The spec's wording for the `"uu"` per-pair distance read in its stated
order ("averaging squared differences over columns then over samples"):
inner `nanmean` over columns t, outer `nanmean` over samples k — the
reverse nesting of `pairDist_uu`.  Used to compare the spec's description
against the source's order of averaging. -/
def pairDist_uu_colsFirst {N T n : ℕ} (Zc : Fin N → Fin T → Fin n → Option ℚ)
    (i i' : Fin N) : Option ℚ :=
  listNanmean ((List.finRange n).map fun k =>
    listNanmean ((List.finRange T).map fun t => sqDiff (Zc i t k) (Zc i' t k)))

/-- Lines 164-166 of the source: `diffs = diffs + diffs.T`, then
`np.clip(diffs, a_min=0, a_max=None)` (clip of NaN is NaN), then
`np.fill_diagonal(diffs, np.inf)`. -/
def symClipDiag {m : ℕ} (raw : Fin m → Fin m → Option ℚ) : Fin m → Fin m → RVal :=
  fun a b =>
    if a = b then .pinf
    else
      match raw a b, raw b a with
      | some x, some y => .fin (max 0 (x + y))
      | _, _ => .nan

/-- `distances` (lines 133-167) for `nn_type = "ii"`: the (T, T)
column-distance matrix. -/
def distances_ii {N T n : ℕ} (Z : Fin N → Fin T → Fin n → ℚ)
    (M : Fin N → Fin T → ℕ) : Fin T → Fin T → RVal :=
  symClipDiag (pairDist_ii (maskZ Z M))

/-- `distances` (lines 133-167) for `nn_type = "uu"`: the (N, N)
row-distance matrix. -/
def distances_uu {N T n : ℕ} (Z : Fin N → Fin T → Fin n → ℚ)
    (M : Fin N → Fin T → ℕ) : Fin N → Fin N → RVal :=
  symClipDiag (pairDist_uu (maskZ Z M))

/-- `wasserstein2_dist` (lines 51-60): `np.nanmean((Y_i - Y_j) ** 2)` on two
sample vectors with possibly-NaN entries. -/
def wasserstein2_dist (Yi Yj : List (Option ℚ)) : Option ℚ :=
  listNanmean (List.zipWith sqDiff Yi Yj)

/-- `avg_error` (lines 169-183):
`np.nanmean(np.nanmean((ests - truth) ** 2, axis=1), axis=0)`; the `inds`
parameter is accepted (default `None`) and does not occur in the body. -/
def avg_error {m n : ℕ} (ests truth : Fin m → Fin n → Option ℚ)
    (inds : Option (List (ℕ × ℕ))) : Option ℚ :=
  listNanmean ((List.finRange m).map fun r =>
    listNanmean ((List.finRange n).map fun k => sqDiff (ests r k) (truth r k)))

/-- A Python exception class relevant to `estimate`. -/
inductive PyErr : Type
  | typeError
  deriving DecidableEq, Repr

/-- The per-cell quantities computed by one iteration of the loop body of
`estimate` (lines 112-123): the estimate vector, the neighbor count
`neighbors.shape[0]`, and `np.nonzero(t_nn & msk_inp_full)`. -/
structure CellEst (m n : ℕ) : Type where
  est : Fin n → RVal
  nn_count : ℕ
  nbrs : Option (List (Fin m))

/-- Loop body of `estimate` (lines 112-123) in `"ii"` mode, for one
requested index (i, j): `t_nn = neighborhoods[j]`; `neighbors = Z[i, t_nn]`
(note: gathered from `Z`, not from the masked copy `Z_cp` of lines 96-98);
if `np.size(neighbors) > 0` (the element count, `#selected * n`), the
estimate is the `nanmean` across the gathered sample vectors, the count is
`neighbors.shape[0]`, and the neighbor list is the nonzero positions of
`t_nn & M[i, :]` (bitwise and of a boolean with the integer mask); else the
sentinel `np.full([n], -np.inf)`, count 0, and `None`. -/
def estimateCell_ii {N T n : ℕ} (Z : Fin N → Fin T → Fin n → ℚ)
    (M : Fin N → Fin T → ℕ) (dists : Fin T → Fin T → RVal) (eta : RVal)
    (i : Fin N) (j : Fin T) : CellEst T n :=
  let t_nn : Fin T → Bool := fun t => leb (dists j t) eta
  let sel : List (Fin T) := (List.finRange T).filter t_nn
  if 0 < sel.length * n then
    { est := fun k => .fin ((sel.map fun t => Z i t k).sum / (sel.length : ℚ))
      nn_count := sel.length
      nbrs := some ((List.finRange T).filter fun t =>
        t_nn t && (Nat.land 1 (M i t) != 0)) }
  else
    { est := fun _ => .ninf, nn_count := 0, nbrs := none }

/-- Loop body of `estimate` (lines 112-123) in `"uu"` mode, for one
requested index (i, j): `t_nn = neighborhoods[i]`; `neighbors = Z[t_nn, j]`
(from `Z`, not `Z_cp`); mask slice `M[:, j]`. -/
def estimateCell_uu {N T n : ℕ} (Z : Fin N → Fin T → Fin n → ℚ)
    (M : Fin N → Fin T → ℕ) (dists : Fin N → Fin N → RVal) (eta : RVal)
    (i : Fin N) (j : Fin T) : CellEst N n :=
  let t_nn : Fin N → Bool := fun s => leb (dists i s) eta
  let sel : List (Fin N) := (List.finRange N).filter t_nn
  if 0 < sel.length * n then
    { est := fun k => .fin ((sel.map fun s => Z s j k).sum / (sel.length : ℚ))
      nn_count := sel.length
      nbrs := some ((List.finRange N).filter fun s =>
        t_nn s && (Nat.land 1 (M s j) != 0)) }
  else
    { est := fun _ => .ninf, nn_count := 0, nbrs := none }

/-- `estimate` (lines 75-131) in `"ii"` mode.  The accumulators
`ests = [[None] * T] * N` and `list_neighbors` are plain Python lists of
lists; with `inds` empty the loop never runs and `ests` (all `None`) is
returned; with a first index (i, j) the loop body runs (pure computation)
and the store `ests[i, j] = est` at line 125 indexes a list with a tuple,
raising `TypeError` before anything is returned. -/
def estimate_ii {N T n : ℕ} (Z : Fin N → Fin T → Fin n → ℚ)
    (M : Fin N → Fin T → ℕ) (eta : RVal) (inds : List (Fin N × Fin T))
    (dists : Fin T → Fin T → RVal) :
    Except PyErr (List (List (Option (Fin n → RVal)))) :=
  match inds with
  | [] => .ok (List.replicate N (List.replicate T none))
  | (i, j) :: _ =>
    let _cell := estimateCell_ii Z M dists eta i j
    .error .typeError

/-- `estimate` (lines 75-131) in `"uu"` mode; same control flow as
`estimate_ii`, with the `"uu"` branch of each line of the loop body. -/
def estimate_uu {N T n : ℕ} (Z : Fin N → Fin T → Fin n → ℚ)
    (M : Fin N → Fin T → ℕ) (eta : RVal) (inds : List (Fin N × Fin T))
    (dists : Fin N → Fin N → RVal) :
    Except PyErr (List (List (Option (Fin n → RVal)))) :=
  match inds with
  | [] => .ok (List.replicate N (List.replicate T none))
  | (i, j) :: _ =>
    let _cell := estimateCell_uu Z M dists eta i j
    .error .typeError

/-! Concrete inputs used by the closed claim theorems. -/

/-- The spec's concrete scenario for `distances`: Z of shape (2, 2, 3, 1)
with column 0 all zeros and column 1 all ones. -/
def Z4 : Fin 2 → Fin 2 → Fin 3 → ℚ := fun _ t _ => if t.val = 0 then 0 else 1

/-- Fully observed mask for `Z4`. -/
def M4 : Fin 2 → Fin 2 → ℕ := fun _ _ => 1

/-- A 1-cell data tensor. -/
def Z1 : Fin 1 → Fin 1 → Fin 1 → ℚ := fun _ _ _ => 0

/-- Fully observed 1-cell mask. -/
def M1 : Fin 1 → Fin 1 → ℕ := fun _ _ => 1

/-- A 1x1 distance matrix whose single (diagonal) entry is infinite, so no
finite eta admits any neighbor. -/
def D1 : Fin 1 → Fin 1 → RVal := fun _ _ => .pinf

/-- Shape (1, 2, 1, 1) tensor whose cell (0, 1) holds 100. -/
def Z2a : Fin 1 → Fin 2 → Fin 1 → ℚ := fun _ t _ => if t.val = 0 then 0 else 100

/-- Shape (1, 2, 1, 1) tensor, all zeros; agrees with `Z2a` on every cell
observed under `M2`. -/
def Z2b : Fin 1 → Fin 2 → Fin 1 → ℚ := fun _ _ _ => 0

/-- Mask observing cell (0, 0) and masking out cell (0, 1) with code 0. -/
def M2 : Fin 1 → Fin 2 → ℕ := fun _ t => if t.val = 0 then 1 else 0

/-- A 2x2 distance matrix with infinite diagonal and off-diagonal 0. -/
def D2 : Fin 2 → Fin 2 → RVal := fun a b => if a = b then .pinf else .fin 0

/-- A 2x2 distance matrix with infinite diagonal and off-diagonal 1. -/
def D6 : Fin 2 → Fin 2 → RVal := fun a b => if a = b then .pinf else .fin 1

/-- Shape (1, 2, 1, 1) tensor, all zeros. -/
def Z6 : Fin 1 → Fin 2 → Fin 1 → ℚ := fun _ _ _ => 0

/-- Fully observed mask for `Z6`. -/
def M6 : Fin 1 → Fin 2 → ℕ := fun _ _ => 1

/-! Helper lemmas. -/

theorem finRange_one : List.finRange 1 = [0] := rfl

theorem finRange_two : List.finRange 2 = [0, 1] := rfl

theorem finRange_three : List.finRange 3 = [0, 1, 2] := rfl

theorem sqDiff_comm (a b : Option ℚ) : sqDiff a b = sqDiff b a := by
  cases a <;> cases b <;> simp [sqDiff]
  ring

theorem pairDist_ii_symm {N T n : ℕ} (Zc : Fin N → Fin T → Fin n → Option ℚ)
    (t t' : Fin T) : pairDist_ii Zc t t' = pairDist_ii Zc t' t := by
  unfold pairDist_ii
  apply congrArg listNanmean
  apply List.map_congr_left
  intro i _
  apply congrArg listNanmean
  apply List.map_congr_left
  intro k _
  exact sqDiff_comm _ _

theorem pairDist_uu_symm {N T n : ℕ} (Zc : Fin N → Fin T → Fin n → Option ℚ)
    (i i' : Fin N) : pairDist_uu Zc i i' = pairDist_uu Zc i' i := by
  unfold pairDist_uu
  apply congrArg listNanmean
  apply List.map_congr_left
  intro t _
  apply congrArg listNanmean
  apply List.map_congr_left
  intro k _
  exact sqDiff_comm _ _

theorem symClipDiag_diag {m : ℕ} (raw : Fin m → Fin m → Option ℚ) (a : Fin m) :
    symClipDiag raw a a = .pinf := by
  simp [symClipDiag]

theorem symClipDiag_symm {m : ℕ} (raw : Fin m → Fin m → Option ℚ)
    (h : ∀ a b, raw a b = raw b a) (a b : Fin m) :
    symClipDiag raw a b = symClipDiag raw b a := by
  unfold symClipDiag
  by_cases hab : a = b
  · subst hab; rfl
  · rw [if_neg hab, if_neg (Ne.symm hab), h a b]

theorem symClipDiag_cases {m : ℕ} (raw : Fin m → Fin m → Option ℚ) (a b : Fin m) :
    symClipDiag raw a b = .pinf ∨ symClipDiag raw a b = .nan ∨
      ∃ q, symClipDiag raw a b = .fin q ∧ 0 ≤ q := by
  unfold symClipDiag
  by_cases hab : a = b
  · left; rw [if_pos hab]
  · rw [if_neg hab]
    rcases h1 : raw a b with _ | x <;> rcases h2 : raw b a with _ | y
    · right; left; rfl
    · right; left; rfl
    · right; left; rfl
    · right; right; exact ⟨max 0 (x + y), rfl, le_max_left _ _⟩

theorem leb_pinf (d : RVal) : leb d .pinf = true ↔ d ≠ .nan := by
  cases d <;> simp [leb]

theorem leb_trans_ltb {d e1 e2 : RVal} (h1 : leb d e1 = true)
    (h2 : ltb e1 e2 = true) : leb d e2 = true := by
  cases d <;> cases e1 <;> cases e2 <;> simp_all [leb, ltb] <;> linarith

theorem filter_sublist_of_imp {α : Type} (l : List α) {p q : α → Bool}
    (h : ∀ a, p a = true → q a = true) : (l.filter p).Sublist (l.filter q) := by
  induction l with
  | nil => simp
  | cons a l ih =>
    cases hp : p a
    · cases hq : q a
      · simpa [List.filter_cons, hp, hq] using ih
      · simp only [List.filter_cons, hp, hq]
        exact ih.cons a
    · have hq : q a = true := h a hp
      simp only [List.filter_cons, hp, hq]
      exact ih.cons₂ a

theorem listNanmean_nil : listNanmean [] = none := rfl

theorem filterMap_ite_eq_map_filter {α : Type} (l : List α) (p : α → Bool)
    (f : α → ℚ) :
    (l.map fun a => if p a then some (f a) else none).filterMap id
      = (l.filter p).map f := by
  induction l with
  | nil => rfl
  | cons a l ih =>
    cases hp : p a <;> simp [List.filterMap_cons, List.filter_cons, hp, ih]

theorem listNanmean_map_ite_nil {α : Type} (l : List α) (p : α → Bool)
    (f : α → ℚ) (h : l.filter p = []) :
    listNanmean (l.map fun a => if p a then some (f a) else none) = none := by
  unfold listNanmean
  rw [filterMap_ite_eq_map_filter, h]
  rfl

theorem listNanmean_map_ite_ne {α : Type} (l : List α) (p : α → Bool)
    (f : α → ℚ) (h : l.filter p ≠ []) :
    listNanmean (l.map fun a => if p a then some (f a) else none)
      = some (((l.filter p).map f).sum / ((l.filter p).length : ℚ)) := by
  unfold listNanmean
  rw [filterMap_ite_eq_map_filter]
  rw [if_neg (fun hc => h (List.map_eq_nil_iff.mp hc)), List.length_map]

theorem listNanmean_map_some_ne {α : Type} (l : List α) (f : α → ℚ)
    (h : l ≠ []) :
    listNanmean (l.map fun a => some (f a))
      = some ((l.map f).sum / (l.length : ℚ)) := by
  have h2 : l.filter (fun _ => true) ≠ [] := by simpa using h
  have h3 := listNanmean_map_ite_ne l (fun _ => true) f h2
  simpa using h3

theorem listNanmean_replicate_none (m : ℕ) :
    listNanmean (List.replicate m (none : Option ℚ)) = none := by
  unfold listNanmean
  have h : (List.replicate m (none : Option ℚ)).filterMap id = [] := by
    induction m with
    | zero => rfl
    | succ m ih => simpa [List.replicate_succ, List.filterMap_cons] using ih
  simp [h]

theorem listNanmean_map_none {α : Type} (l : List α) :
    listNanmean (l.map fun _ => (none : Option ℚ)) = none := by
  rw [List.map_const']
  exact listNanmean_replicate_none l.length

theorem sum_map_div {α : Type} (l : List α) (f : α → ℚ) (c : ℚ) :
    (l.map fun a => f a / c).sum = (l.map f).sum / c := by
  induction l with
  | nil => simp
  | cons a l ih => simp [ih, add_div]

theorem sum_map_add {α : Type} (l : List α) (f g : α → ℚ) :
    (l.map fun a => f a + g a).sum = (l.map f).sum + (l.map g).sum := by
  induction l with
  | nil => simp
  | cons a l ih => simp [ih]; ring

theorem sum_map_swap {α β : Type} (l1 : List α) (l2 : List β) (d : α → β → ℚ) :
    (l1.map fun a => (l2.map fun b => d a b).sum).sum
      = (l2.map fun b => (l1.map fun a => d a b).sum).sum := by
  induction l1 with
  | nil => simp
  | cons a l1 ih =>
    simp only [List.map_cons, List.sum_cons, ih]
    rw [← sum_map_add]

theorem sqDiff_maskZ {N T n : ℕ} (Z : Fin N → Fin T → Fin n → ℚ)
    (M : Fin N → Fin T → ℕ) (i i' : Fin N) (t : Fin T) (k : Fin n) :
    sqDiff (maskZ Z M i t k) (maskZ Z M i' t k)
      = if (decide (M i t = 1) && decide (M i' t = 1))
        then some ((Z i t k - Z i' t k) ^ 2) else none := by
  by_cases h1 : M i t = 1 <;> by_cases h2 : M i' t = 1 <;>
    simp [maskZ, sqDiff, h1, h2]

theorem listNanmean_ite_swap {α β : Type} (lt : List α) (lk : List β)
    (p : α → Bool) (d : α → β → ℚ) :
    listNanmean (lt.map fun t =>
        listNanmean (lk.map fun k => if p t then some (d t k) else none))
      = listNanmean (lk.map fun k =>
          listNanmean (lt.map fun t => if p t then some (d t k) else none)) := by
  by_cases hk : lk = []
  · subst hk
    simp only [List.map_nil, listNanmean_nil]
    rw [listNanmean_map_none]
  · by_cases hG : lt.filter p = []
    · rw [List.map_congr_left (g := fun t => (none : Option ℚ)) ?hL,
        listNanmean_map_none,
        List.map_congr_left (g := fun k => (none : Option ℚ)) ?hR,
        listNanmean_map_none]
      case hL =>
        intro t ht
        have hpt : p t = false := by
          have h := List.filter_eq_nil_iff.mp hG t ht
          simpa using h
        simp [hpt, listNanmean_replicate_none]
      case hR =>
        intro k _
        exact listNanmean_map_ite_nil lt p _ hG
    · have hin : ∀ t, listNanmean (lk.map fun k => if p t then some (d t k) else none)
          = if p t then some ((lk.map (d t)).sum / (lk.length : ℚ)) else none := by
        intro t
        cases hpt : p t
        · simp [hpt, listNanmean_replicate_none]
        · simp only [hpt, if_true]
          exact listNanmean_map_some_ne lk (d t) hk
      have hin2 : ∀ k, listNanmean (lt.map fun t => if p t then some (d t k) else none)
          = some (((lt.filter p).map fun t => d t k).sum / ((lt.filter p).length : ℚ)) :=
        fun k => listNanmean_map_ite_ne lt p _ hG
      rw [List.map_congr_left (fun t _ => hin t),
        listNanmean_map_ite_ne lt p (fun t => (lk.map (d t)).sum / (lk.length : ℚ)) hG,
        List.map_congr_left (fun k _ => hin2 k),
        listNanmean_map_some_ne _ _ hk]
      rw [sum_map_div, sum_map_div, sum_map_swap, div_right_comm]

theorem pairDist_uu_order_swap {N T n : ℕ} (Z : Fin N → Fin T → Fin n → ℚ)
    (M : Fin N → Fin T → ℕ) (i i' : Fin N) :
    pairDist_uu (maskZ Z M) i i' = pairDist_uu_colsFirst (maskZ Z M) i i' := by
  unfold pairDist_uu pairDist_uu_colsFirst
  have e1 : ((List.finRange T).map fun t => listNanmean ((List.finRange n).map
        fun k => sqDiff (maskZ Z M i t k) (maskZ Z M i' t k)))
      = (List.finRange T).map fun t => listNanmean ((List.finRange n).map
        fun k => if (decide (M i t = 1) && decide (M i' t = 1))
          then some ((Z i t k - Z i' t k) ^ 2) else none) :=
    List.map_congr_left fun t _ => congrArg listNanmean
      (List.map_congr_left fun k _ => sqDiff_maskZ Z M i i' t k)
  have e2 : ((List.finRange n).map fun k => listNanmean ((List.finRange T).map
        fun t => sqDiff (maskZ Z M i t k) (maskZ Z M i' t k)))
      = (List.finRange n).map fun k => listNanmean ((List.finRange T).map
        fun t => if (decide (M i t = 1) && decide (M i' t = 1))
          then some ((Z i t k - Z i' t k) ^ 2) else none) :=
    List.map_congr_left fun k _ => congrArg listNanmean
      (List.map_congr_left fun t _ => sqDiff_maskZ Z M i i' t k)
  rw [e1, e2]
  exact listNanmean_ite_swap (List.finRange T) (List.finRange n)
    (fun t => decide (M i t = 1) && decide (M i' t = 1))
    (fun t k => (Z i t k - Z i' t k) ^ 2)

theorem estimateCell_ii_count {N T n : ℕ} (Z : Fin N → Fin T → Fin n → ℚ)
    (M : Fin N → Fin T → ℕ) (dists : Fin T → Fin T → RVal) (eta : RVal)
    (i : Fin N) (j : Fin T) :
    (estimateCell_ii Z M dists eta i j).nn_count
      = if 0 < ((List.finRange T).filter fun t => leb (dists j t) eta).length * n
        then ((List.finRange T).filter fun t => leb (dists j t) eta).length
        else 0 := by
  simp only [estimateCell_ii]
  by_cases h : 0 < ((List.finRange T).filter fun t => leb (dists j t) eta).length * n
  · rw [if_pos h, if_pos h]
  · rw [if_neg h, if_neg h]

theorem estimateCell_uu_count {N T n : ℕ} (Z : Fin N → Fin T → Fin n → ℚ)
    (M : Fin N → Fin T → ℕ) (dists : Fin N → Fin N → RVal) (eta : RVal)
    (i : Fin N) (j : Fin T) :
    (estimateCell_uu Z M dists eta i j).nn_count
      = if 0 < ((List.finRange N).filter fun s => leb (dists i s) eta).length * n
        then ((List.finRange N).filter fun s => leb (dists i s) eta).length
        else 0 := by
  simp only [estimateCell_uu]
  by_cases h : 0 < ((List.finRange N).filter fun s => leb (dists i s) eta).length * n
  · rw [if_pos h, if_pos h]
  · rw [if_neg h, if_neg h]

/-! Claim theorems. -/

/-- C1: at a concrete input whose eta-neighborhood gather is empty (a 1x1
tensor, a distance matrix whose only entry is infinite, eta = 0), the loop
body of `estimate` does compute the sentinel vector of negative infinity
and a neighbor count of zero — but `estimate` itself then raises TypeError
at the accumulator store `ests[i, j] = est` instead of returning them, so
the claimed "returns the sentinel and does not raise" fails on the code. -/
theorem C1_estimate_empty_nbhd_raises :
    (estimateCell_ii Z1 M1 D1 (RVal.fin 0) 0 0).est 0 = RVal.ninf ∧
    (estimateCell_ii Z1 M1 D1 (RVal.fin 0) 0 0).nn_count = 0 ∧
    estimate_ii Z1 M1 (RVal.fin 0) [(0, 0)] D1 = Except.error PyErr.typeError := by
  refine ⟨?_, ?_, rfl⟩ <;> simp [estimateCell_ii, leb, finRange_one, D1]

/-- C2: cells with mask code 0 do contribute to the averages `estimate`
computes.  `Z2a` and `Z2b` agree on every cell observed under `M2` (only
cell (0,0); both hold 0 there) and differ only at the masked-out cell
(0,1) (code 0; values 100 vs 0), yet the estimates the loop body computes
for index (0,0) differ (100 vs 0): the gather at line 115 reads the raw
`Z`, not the NaN-masked copy `Z_cp` built at lines 96-98, so the result
depends on an M = 0 cell, contradicting the claim. -/
theorem C2_masked_cell_contributes :
    M2 0 1 = 0 ∧ Z2a 0 0 = Z2b 0 0 ∧
    (estimateCell_ii Z2a M2 D2 (RVal.fin 0) 0 0).est 0 = RVal.fin 100 ∧
    (estimateCell_ii Z2b M2 D2 (RVal.fin 0) 0 0).est 0 = RVal.fin 0 := by
  refine ⟨rfl, ?_, ?_, ?_⟩
  · funext k
    simp [Z2a, Z2b]
  · simp [estimateCell_ii, leb, finRange_one, finRange_two, D2, Z2a]
  · simp [estimateCell_ii, leb, finRange_one, finRange_two, D2, Z2b]

/-- C3: for every data tensor, mask, eta, distance matrix and non-empty
index list (in either neighbor mode), `estimate` reaches the tuple-indexed
store into the plain list-of-lists accumulator on the first iteration and
raises TypeError; it never returns successfully when at least one index is
requested. -/
theorem C3_estimate_nonempty_raises :
    ∀ (N T n : ℕ) (Z : Fin N → Fin T → Fin n → ℚ) (M : Fin N → Fin T → ℕ)
      (eta : RVal) (dii : Fin T → Fin T → RVal) (duu : Fin N → Fin N → RVal)
      (i : Fin N) (j : Fin T) (rest : List (Fin N × Fin T)),
      estimate_ii Z M eta ((i, j) :: rest) dii = Except.error PyErr.typeError ∧
      estimate_uu Z M eta ((i, j) :: rest) duu = Except.error PyErr.typeError :=
  fun _ _ _ _ _ _ _ _ _ _ _ => ⟨rfl, rfl⟩

/-- C4: on the spec's concrete scenario (Z of shape (2,2,3,1) with column 0
all zeros and column 1 all ones, fully observed, mode "ii") the
hand-computed off-diagonal value — the mean over 2 rows of the mean squared
difference over 3 samples — is 1, but `distances` returns 2: the vectorized
computation populates both triangular halves, so `diffs + diffs.T` doubles
every off-diagonal entry.  The infinite-diagonal part of the claim holds. -/
theorem C4_distances_concrete_doubled :
    distances_ii Z4 M4 0 1 = RVal.fin 2 ∧ distances_ii Z4 M4 0 1 ≠ RVal.fin 1 ∧
    distances_ii Z4 M4 1 0 = RVal.fin 2 ∧
    distances_ii Z4 M4 0 0 = RVal.pinf ∧ distances_ii Z4 M4 1 1 = RVal.pinf := by
  have h01 : distances_ii Z4 M4 0 1 = RVal.fin 2 := by
    simp [distances_ii, symClipDiag, pairDist_ii, maskZ, listNanmean, sqDiff,
      Z4, M4, finRange_two, finRange_three]
    norm_num
  have h10 : distances_ii Z4 M4 1 0 = RVal.fin 2 := by
    simp [distances_ii, symClipDiag, pairDist_ii, maskZ, listNanmean, sqDiff,
      Z4, M4, finRange_two, finRange_three]
    norm_num
  refine ⟨h01, ?_, h10, symClipDiag_diag _ _, symClipDiag_diag _ _⟩
  rw [h01]
  exact fun hc => absurd (RVal.fin.inj hc) (by norm_num)

/-- C5: for every Z and M and either neighbor mode, the matrix returned by
`distances` is symmetric, has positive infinity on the diagonal, and every
finite entry is non-negative. -/
theorem C5_distances_invariants :
    ∀ (N T n : ℕ) (Z : Fin N → Fin T → Fin n → ℚ) (M : Fin N → Fin T → ℕ),
      ((∀ a b : Fin T, distances_ii Z M a b = distances_ii Z M b a) ∧
       (∀ a : Fin T, distances_ii Z M a a = RVal.pinf) ∧
       (∀ a b : Fin T, distances_ii Z M a b = RVal.pinf ∨
          distances_ii Z M a b = RVal.nan ∨
          ∃ q, distances_ii Z M a b = RVal.fin q ∧ 0 ≤ q)) ∧
      ((∀ a b : Fin N, distances_uu Z M a b = distances_uu Z M b a) ∧
       (∀ a : Fin N, distances_uu Z M a a = RVal.pinf) ∧
       (∀ a b : Fin N, distances_uu Z M a b = RVal.pinf ∨
          distances_uu Z M a b = RVal.nan ∨
          ∃ q, distances_uu Z M a b = RVal.fin q ∧ 0 ≤ q)) := by
  intro N T n Z M
  exact ⟨⟨fun a b => symClipDiag_symm _ (pairDist_ii_symm (maskZ Z M)) a b,
          fun a => symClipDiag_diag _ a,
          fun a b => symClipDiag_cases _ a b⟩,
         ⟨fun a b => symClipDiag_symm _ (pairDist_uu_symm (maskZ Z M)) a b,
          fun a => symClipDiag_diag _ a,
          fun a b => symClipDiag_cases _ a b⟩⟩

/-- C6 (counterexample): with eta = +infinity on a 2x2 distance matrix with
infinite diagonal and finite off-diagonal entries, nothing masked out, the
claim's count for index (0,0) would be 1 (the one other index); the code's
count is 2, because `inf <= inf` is true for the diagonal entry, so the
target index itself is included in its own neighborhood. -/
theorem C6_eta_inf_count_counterexample :
    (estimateCell_ii Z6 M6 D6 RVal.pinf 0 0).nn_count = 2 ∧
    (estimateCell_ii Z6 M6 D6 RVal.pinf 0 0).nn_count ≠ 1 := by
  have h : (estimateCell_ii Z6 M6 D6 RVal.pinf 0 0).nn_count = 2 := by
    simp [estimateCell_ii, leb, finRange_two, D6]
  exact ⟨h, by rw [h]; omega⟩

/-- C6 (amended): when eta is positive infinity and the per-cell sample
count n is positive, the neighbor count computed by the loop body of
`estimate` for a requested index equals the number of entries of the
corresponding distance row that are not NaN — the target index itself
included (since `inf <= inf` holds for the infinite diagonal) and with no
exclusion of indices masked out by M (the mask does not enter the count). -/
theorem C6_eta_inf_count_amended :
    ∀ (N T n' : ℕ) (Z : Fin N → Fin T → Fin (n' + 1) → ℚ)
      (M : Fin N → Fin T → ℕ) (dii : Fin T → Fin T → RVal)
      (duu : Fin N → Fin N → RVal) (i : Fin N) (j : Fin T),
      (estimateCell_ii Z M dii RVal.pinf i j).nn_count
          = ((List.finRange T).filter fun t => decide (dii j t ≠ RVal.nan)).length ∧
      (estimateCell_uu Z M duu RVal.pinf i j).nn_count
          = ((List.finRange N).filter fun s => decide (duu i s ≠ RVal.nan)).length := by
  intro N T n' Z M dii duu i j
  have hfil : ∀ (m : ℕ) (row : Fin m → RVal),
      ((List.finRange m).filter fun t => leb (row t) RVal.pinf)
        = (List.finRange m).filter fun t => decide (row t ≠ RVal.nan) := by
    intro m row
    apply List.filter_congr
    intro t _
    cases row t <;> rfl
  constructor
  · rw [estimateCell_ii_count, hfil T (dii j)]
    rcases hL : ((List.finRange T).filter fun t => decide (dii j t ≠ RVal.nan)).length
      with _ | l
    · rw [if_neg (by omega)]
    · rw [if_pos (by positivity)]
  · rw [estimateCell_uu_count, hfil N (duu i)]
    rcases hL : ((List.finRange N).filter fun s => decide (duu i s ≠ RVal.nan)).length
      with _ | l
    · rw [if_neg (by omega)]
    · rw [if_pos (by positivity)]

/-- C7: for thresholds eta1 < eta2, the eta1-neighborhood of any target
index (the filtered index list `dists[j] <= eta1` that `estimate` gathers
over) is a sublist of its eta2-neighborhood, and the neighbor count the
loop body of `estimate` computes is non-decreasing in eta, in either
neighbor mode. -/
theorem C7_neighborhood_monotone (eta1 eta2 : RVal) (h : ltb eta1 eta2 = true) :
    (∀ (m : ℕ) (row : Fin m → RVal),
        ((List.finRange m).filter fun t => leb (row t) eta1).Sublist
          ((List.finRange m).filter fun t => leb (row t) eta2)) ∧
    (∀ (N T n : ℕ) (Z : Fin N → Fin T → Fin n → ℚ) (M : Fin N → Fin T → ℕ)
        (dists : Fin T → Fin T → RVal) (i : Fin N) (j : Fin T),
        (estimateCell_ii Z M dists eta1 i j).nn_count
          ≤ (estimateCell_ii Z M dists eta2 i j).nn_count) ∧
    (∀ (N T n : ℕ) (Z : Fin N → Fin T → Fin n → ℚ) (M : Fin N → Fin T → ℕ)
        (dists : Fin N → Fin N → RVal) (i : Fin N) (j : Fin T),
        (estimateCell_uu Z M dists eta1 i j).nn_count
          ≤ (estimateCell_uu Z M dists eta2 i j).nn_count) := by
  have hsub : ∀ (m : ℕ) (row : Fin m → RVal),
      ((List.finRange m).filter fun t => leb (row t) eta1).Sublist
        ((List.finRange m).filter fun t => leb (row t) eta2) :=
    fun m row => filter_sublist_of_imp _ (fun t ht => leb_trans_ltb ht h)
  refine ⟨hsub, ?_, ?_⟩
  · intro N T n Z M dists i j
    rw [estimateCell_ii_count, estimateCell_ii_count]
    have hle := (hsub T (dists j)).length_le
    by_cases h1 :
        0 < ((List.finRange T).filter fun t => leb (dists j t) eta1).length * n
    · rw [if_pos h1, if_pos (lt_of_lt_of_le h1 (Nat.mul_le_mul_right n hle))]
      exact hle
    · rw [if_neg h1]
      exact Nat.zero_le _
  · intro N T n Z M dists i j
    rw [estimateCell_uu_count, estimateCell_uu_count]
    have hle := (hsub N (dists i)).length_le
    by_cases h1 :
        0 < ((List.finRange N).filter fun s => leb (dists i s) eta1).length * n
    · rw [if_pos h1, if_pos (lt_of_lt_of_le h1 (Nat.mul_le_mul_right n hle))]
      exact hle
    · rw [if_neg h1]
      exact Nat.zero_le _

/-- C7 (witness): the monotonicity theorem applied at eta1 = 0 < eta2 = 1
on the concrete distance matrix `D6`. -/
theorem C7_neighborhood_monotone_witness :
    (estimateCell_ii Z6 M6 D6 (RVal.fin 0) 0 0).nn_count
      ≤ (estimateCell_ii Z6 M6 D6 (RVal.fin 1) 0 0).nn_count :=
  (C7_neighborhood_monotone (RVal.fin 0) (RVal.fin 1)
    (by simp [ltb])).2.1 1 2 1 Z6 M6 D6 0 0

/-- C8: mode "uu" of `distances` is mode "ii" on the transposed tensor and
mask, and the per-pair distance in "uu" mode (samples averaged first, then
columns, as the source nests its two `nanmean`s) coincides on masked data
with the spec's stated order (columns first, then samples). -/
theorem C8_uu_is_ii_transposed :
    ∀ (N T n : ℕ) (Z : Fin N → Fin T → Fin n → ℚ) (M : Fin N → Fin T → ℕ),
      distances_uu Z M = distances_ii (fun t i k => Z i t k) (fun t i => M i t) ∧
      ∀ i i' : Fin N,
        pairDist_uu (maskZ Z M) i i' = pairDist_uu_colsFirst (maskZ Z M) i i' :=
  fun _ _ _ Z M => ⟨rfl, fun i i' => pairDist_uu_order_swap Z M i i'⟩

/-- C9: the `inds` parameter of `avg_error` has no effect on the result:
any two values of the argument (including the default None) give equal
results. -/
theorem C9_avg_error_ignores_inds :
    ∀ (m n : ℕ) (ests truth : Fin m → Fin n → Option ℚ)
      (inds1 inds2 : Option (List (ℕ × ℕ))),
      avg_error ests truth inds1 = avg_error ests truth inds2 :=
  fun _ _ _ _ _ _ => rfl

/-- C10: `wasserstein2_dist` is symmetric in its two sample vectors, and on
a pair of identical nonempty sample vectors with no NaN entry it equals
zero. -/
theorem C10_wasserstein2_symm_and_zero :
    (∀ Yi Yj : List (Option ℚ), wasserstein2_dist Yi Yj = wasserstein2_dist Yj Yi) ∧
    (∀ (y : ℚ) (tl : List ℚ),
      wasserstein2_dist ((y :: tl).map some) ((y :: tl).map some) = some 0) := by
  constructor
  · intro Yi Yj
    unfold wasserstein2_dist
    apply congrArg listNanmean
    induction Yi generalizing Yj with
    | nil => cases Yj <;> rfl
    | cons a l ih =>
      cases Yj with
      | nil => rfl
      | cons b m => simp [List.zipWith_cons_cons, sqDiff_comm a b, ih m]
  · intro y tl
    have hz : ∀ l : List ℚ,
        List.zipWith sqDiff (l.map some) (l.map some) = l.map fun _ => some (0 : ℚ) := by
      intro l
      induction l with
      | nil => rfl
      | cons x l ih =>
        rw [List.map_cons, List.map_cons, List.zipWith_cons_cons, ih]
        have hh : sqDiff (some x) (some x) = some 0 := by simp [sqDiff]
        rw [hh]
    unfold wasserstein2_dist
    rw [hz (y :: tl), listNanmean_map_some_ne _ _ (by simp)]
    simp
